import Mathlib

/-!
Verification of the SR-Now continuous transcription/summarization pipeline
(`main.py`, `routes.py`).

The development shallowly embeds the Python program:

* `PyDateTime` models `datetime.datetime` values at microsecond resolution;
  `isoformat` / `fromisoformat` model `datetime.isoformat()` and
  `datetime.fromisoformat()` on the grammar the program itself produces
  (`YYYY-MM-DD[THH:MM[:SS[.ffffff]]][±HH:MM]`, with calendar validation),
  with `none` standing for a raised `ValueError`.
* `RedisStore` models the Redis keyspace used by the program: transcription
  entries keyed by `(channel, epoch-second)` (the structured form of
  `sr_now:transcriptions:<channel>:<epoch>`) and summaries keyed by channel
  (`sr_now:summary:<channel>`), with `setex`-style expiry instants recorded.
  An `Option RedisStore` is the module-level `redis_client` (`none` = no
  client configured). JSON encode/decode of entry records is modelled as the
  identity on the structured records.
* Wall-clock reads (`datetime.now(timezone.utc)`) are passed explicitly as a
  `now : PyDateTime` argument; `timedelta` arithmetic appearing only inside
  comparisons is modelled on the instant scale (`instantUsec`).
* `Except String` results model raised-vs-returned: `.error e` is an uncaught
  exception whose `str(e)` is `e`.
* The per-channel worker loop body (`process_channel`) is `runCycle`, driven
  by a `CycleEnv` supplying the outcomes of the external collaborators
  (ffmpeg capture, Whisper transcription, chat completion) and the cycle's
  clock reading; `runLoop` iterates it. Temporary files are modelled as the
  list of paths currently on disk.
-/

def padNum : Nat → Nat → List Char
  | 0, _ => []
  | k+1, n => Char.ofNat (48 + (n / 10^k) % 10) :: padNum k n

def readDigits : Nat → Nat → List Char → Option (Nat × List Char)
  | 0, acc, cs => some (acc, cs)
  | k+1, acc, cs =>
    match cs with
    | [] => none
    | c :: cs' => if c.isDigit then readDigits k (acc * 10 + (c.toNat - 48)) cs' else none

theorem readDigits_padNum (k : Nat) : ∀ (acc n : Nat) (rest : List Char),
    readDigits k acc (padNum k n ++ rest) = some (acc * 10 ^ k + n % 10 ^ k, rest) := by
  induction k with
  | zero => intro acc n rest; simp [readDigits, padNum, Nat.mod_one]
  | succ k ih =>
    intro acc n rest
    have hd : (n / 10 ^ k) % 10 < 10 := Nat.mod_lt _ (by norm_num)
    have hdig : (Char.ofNat (48 + (n / 10 ^ k) % 10)).isDigit = true := by
      set d := (n / 10 ^ k) % 10 with hdef
      interval_cases d <;> decide
    have htn : (Char.ofNat (48 + (n / 10 ^ k) % 10)).toNat = 48 + (n / 10 ^ k) % 10 := by
      set d := (n / 10 ^ k) % 10 with hdef
      interval_cases d <;> decide
    simp only [padNum, List.cons_append, readDigits, hdig, if_true, htn]
    rw [ih]
    congr 2
    have h48 : 48 + (n / 10 ^ k) % 10 - 48 = (n / 10 ^ k) % 10 := by omega
    rw [h48, Nat.mod_pow_succ]
    ring

theorem length_padNum (k n : Nat) : (padNum k n).length = k := by
  induction k generalizing n with
  | zero => rfl
  | succ k ih => simp [padNum, ih]

structure PyDateTime where
  year : Nat
  month : Nat
  day : Nat
  hour : Nat
  minute : Nat
  second : Nat
  usec : Nat
  tzMin : Option Int
  deriving DecidableEq, Repr

def isLeapYear (y : Nat) : Bool := (y % 4 == 0 && y % 100 != 0) || y % 400 == 0

def daysInMonth (y m : Nat) : Nat :=
  if m = 2 then (if isLeapYear y then 29 else 28)
  else if m = 4 ∨ m = 6 ∨ m = 9 ∨ m = 11 then 30 else 31

theorem daysInMonth_le (y m : Nat) : daysInMonth y m ≤ 31 := by
  unfold daysInMonth
  split
  · split <;> omega
  · split <;> omega

def validDT (d : PyDateTime) : Bool :=
  1 ≤ d.year && d.year ≤ 9999 && 1 ≤ d.month && d.month ≤ 12 &&
  1 ≤ d.day && d.day ≤ daysInMonth d.year d.month &&
  d.hour ≤ 23 && d.minute ≤ 59 && d.second ≤ 59 && d.usec ≤ 999999 &&
  (match d.tzMin with
   | none => true
   | some off => off.natAbs < 1440)

def tzChars : Option Int → List Char
  | none => []
  | some off =>
    (if off < 0 then '-' else '+') :: (padNum 2 (off.natAbs / 60) ++ ':' :: padNum 2 (off.natAbs % 60))

def isoChars (d : PyDateTime) : List Char :=
  padNum 4 d.year ++ '-' :: padNum 2 d.month ++ '-' :: padNum 2 d.day ++
  'T' :: padNum 2 d.hour ++ ':' :: padNum 2 d.minute ++ ':' :: padNum 2 d.second ++
  (if d.usec = 0 then [] else '.' :: padNum 6 d.usec) ++ tzChars d.tzMin

def isoformat (d : PyDateTime) : String := String.mk (isoChars d)

def expectCh (c : Char) : List Char → Option (List Char)
  | [] => none
  | x :: xs => if x = c then some xs else none

def parseFrac (cs : List Char) : Option (Nat × List Char) :=
  match readDigits 6 0 cs with
  | some (u, rest) => some (u, rest)
  | none =>
    match readDigits 3 0 cs with
    | some (u, rest) => some (u * 1000, rest)
    | none => none

def parseTzPart (cs : List Char) : Option (Option Int × List Char) :=
  match cs with
  | [] => some (none, [])
  | c :: rest =>
    if c = '+' ∨ c = '-' then
      match readDigits 2 0 rest with
      | none => none
      | some (oh, r1) =>
        match expectCh ':' r1 with
        | none => none
        | some r2 =>
          match readDigits 2 0 r2 with
          | none => none
          | some (om, r3) =>
            if om ≤ 59 ∧ oh * 60 + om < 1440 then
              some (some (if c = '-' then -((oh * 60 + om : Nat) : Int) else ((oh * 60 + om : Nat) : Int)), r3)
            else none
    else none

def parseSecPart (cs : List Char) : Option (Nat × List Char) :=
  match expectCh ':' cs with
  | some r =>
    match readDigits 2 0 r with
    | some (sec, r') => if sec ≤ 59 then some (sec, r') else none
    | none => none
  | none => some (0, cs)

def parseFracPart (cs : List Char) : Option (Nat × List Char) :=
  match cs with
  | '.' :: r => parseFrac r
  | ',' :: r => parseFrac r
  | _ => some (0, cs)

def parseTimeTail (y mo da : Nat) (cs : List Char) : Option PyDateTime := do
  let (h, r7) ← readDigits 2 0 cs
  let r8 ← expectCh ':' r7
  let (mi, r9) ← readDigits 2 0 r8
  if h ≤ 23 ∧ mi ≤ 59 then do
    let (sec, r10) ← parseSecPart r9
    let (us, r11) ← parseFracPart r10
    let (tz, r12) ← parseTzPart r11
    if r12 = [] then some ⟨y, mo, da, h, mi, sec, us, tz⟩ else none
  else none

def parseISO (cs : List Char) : Option PyDateTime := do
  let (y, r1) ← readDigits 4 0 cs
  let r2 ← expectCh '-' r1
  let (mo, r3) ← readDigits 2 0 r2
  let r4 ← expectCh '-' r3
  let (da, r5) ← readDigits 2 0 r4
  if 1 ≤ y ∧ 1 ≤ mo ∧ mo ≤ 12 ∧ 1 ≤ da ∧ da ≤ daysInMonth y mo then
    match r5 with
    | [] => some ⟨y, mo, da, 0, 0, 0, 0, none⟩
    | _sep :: r6 => parseTimeTail y mo da r6
  else none

def fromisoformat (s : String) : Option PyDateTime := parseISO s.data

theorem expectCh_cons (c : Char) (r : List Char) : expectCh c (c :: r) = some r := by
  simp [expectCh]

theorem readDigits_padNum₀ (k n : Nat) (rest : List Char) (h : n < 10 ^ k) :
    readDigits k 0 (padNum k n ++ rest) = some (n, rest) := by
  rw [readDigits_padNum, Nat.zero_mul, Nat.zero_add, Nat.mod_eq_of_lt h]

theorem parseFrac_padNum (u : Nat) (rest : List Char) (h : u ≤ 999999) :
    parseFrac (padNum 6 u ++ rest) = some (u, rest) := by
  unfold parseFrac
  rw [readDigits_padNum₀ 6 u rest (by omega)]

theorem readDigits_padNum_nil (k n : Nat) (h : n < 10 ^ k) :
    readDigits k 0 (padNum k n) = some (n, []) := by
  have := readDigits_padNum₀ k n [] h
  rwa [List.append_nil] at this

theorem parseTzPart_tzChars (off : Int) (hoff : off.natAbs < 1440) :
    parseTzPart (tzChars (some off)) = some (some off, []) := by
  have hdiv : off.natAbs / 60 < 100 := by omega
  have hmod : off.natAbs % 60 < 100 := by omega
  have hc : off.natAbs % 60 ≤ 59 ∧ off.natAbs / 60 * 60 + off.natAbs % 60 < 1440 := by omega
  by_cases hneg : off < 0
  · simp (disch := omega) only [tzChars, if_pos hneg, parseTzPart, readDigits_padNum₀,
      readDigits_padNum_nil, expectCh_cons, List.cons_append, or_true, true_or, if_true]
    rw [if_pos hc]
    simp only [if_true, Option.some.injEq, Prod.mk.injEq, and_true]
    omega
  · simp (disch := omega) only [tzChars, if_neg hneg, parseTzPart, readDigits_padNum₀,
      readDigits_padNum_nil, expectCh_cons, List.cons_append, or_true, true_or, if_true]
    rw [if_pos hc]
    have hne : (('+' : Char) = '-') = False := by
      simp
    simp only [hne, if_false, Option.some.injEq, Prod.mk.injEq, and_true]
    omega

theorem parseFracPart_tzChars (off : Int) :
    parseFracPart (tzChars (some off)) = some (0, tzChars (some off)) := by
  by_cases hneg : off < 0 <;> simp [tzChars, hneg, parseFracPart]

theorem parseTzPart_tzChars' (tz : Option Int)
    (htz : (match tz with | none => true | some off => decide (off.natAbs < 1440)) = true) :
    parseTzPart (tzChars tz) = some (tz, []) := by
  match tz, htz with
  | none, _ => rfl
  | some off, htz => exact parseTzPart_tzChars off (by simpa using htz)

theorem parseFracPart_tzChars' (tz : Option Int) :
    parseFracPart (tzChars tz) = some (0, tzChars tz) := by
  match tz with
  | none => rfl
  | some off => exact parseFracPart_tzChars off

theorem parseTimeTail_iso (y mo da h mi sec us : Nat) (tz : Option Int)
    (hh : h ≤ 23) (hmi : mi ≤ 59) (hsec : sec ≤ 59) (hus : us ≤ 999999)
    (htz : (match tz with | none => true | some off => decide (off.natAbs < 1440)) = true) :
    parseTimeTail y mo da
      (padNum 2 h ++ ':' :: padNum 2 mi ++ ':' :: padNum 2 sec ++
        (if us = 0 then [] else '.' :: padNum 6 us) ++ tzChars tz) =
      some ⟨y, mo, da, h, mi, sec, us, tz⟩ := by
  have hsecpart : ∀ rest : List Char,
      parseSecPart (':' :: (padNum 2 sec ++ rest)) = some (sec, rest) := by
    intro rest
    simp (disch := omega) only [parseSecPart, expectCh_cons, readDigits_padNum₀, if_pos hsec]
  simp only [List.append_assoc, List.cons_append]
  simp (disch := omega) only [parseTimeTail, Option.bind_eq_bind, Option.some_bind,
    readDigits_padNum₀, expectCh_cons, if_pos (⟨hh, hmi⟩ : h ≤ 23 ∧ mi ≤ 59), hsecpart]
  by_cases hus0 : us = 0
  · simp only [hus0, if_true, eq_self_iff_true, List.nil_append, parseFracPart_tzChars' tz,
      Option.some_bind, parseTzPart_tzChars' tz htz]
  · have hfrac : parseFracPart ('.' :: (padNum 6 us ++ tzChars tz)) = some (us, tzChars tz) := by
      simp only [parseFracPart]
      exact parseFrac_padNum us _ hus
    simp only [if_neg hus0, List.cons_append, List.append_assoc, hfrac, Option.some_bind,
      parseTzPart_tzChars' tz htz, eq_self_iff_true, if_true]

theorem fromiso_iso (d : PyDateTime) (hv : validDT d = true) :
    fromisoformat (isoformat d) = some d := by
  obtain ⟨y, mo, da, h, mi, sec, us, tz⟩ := d
  simp only [validDT, Bool.and_eq_true, decide_eq_true_eq] at hv
  obtain ⟨⟨⟨⟨⟨⟨⟨⟨⟨⟨hy1, hy2⟩, hmo1⟩, hmo2⟩, hda1⟩, hda2⟩, hh⟩, hmi⟩, hsec⟩, hus⟩, htz⟩ := hv
  have hda100 : da < 100 := by
    have := daysInMonth_le y mo
    omega
  have hguard : 1 ≤ y ∧ 1 ≤ mo ∧ mo ≤ 12 ∧ 1 ≤ da ∧ da ≤ daysInMonth y mo :=
    ⟨hy1, hmo1, hmo2, hda1, hda2⟩
  show parseISO (isoChars _) = _
  simp only [isoChars, List.append_assoc, List.cons_append]
  simp (disch := omega) only [parseISO, Option.bind_eq_bind, Option.some_bind,
    readDigits_padNum₀, expectCh_cons, if_pos hguard]
  rw [← List.cons_append, ← List.cons_append, ← List.append_assoc, ← List.append_assoc]
  exact parseTimeTail_iso y mo da h mi sec us tz hh hmi hsec hus htz

/-- Days since 1970-01-01 of a civil date (Howard Hinnant's `days_from_civil`);
all divisions act on nonnegative values for years ≥ 1, so the rounding
convention is immaterial. -/
def daysFromCivil (y m d : Nat) : Int :=
  let yy : Int := if m ≤ 2 then (y : Int) - 1 else (y : Int)
  let era : Int := yy / 400
  let yoe : Int := yy - era * 400
  let mp : Int := ((m : Int) + 9) % 12
  let doy : Int := (153 * mp + 2) / 5 + (d : Int) - 1
  let doe : Int := yoe * 365 + yoe / 4 - yoe / 100 + doy
  era * 146097 + doe - 719468

/-- The POSIX epoch second of a datetime, as computed by
`datetime.timestamp()` on an aware value (naive values are treated as UTC;
the program normalizes to aware UTC before ever calling `timestamp()`). -/
def toEpochSec (d : PyDateTime) : Int :=
  daysFromCivil d.year d.month d.day * 86400 +
    (d.hour : Int) * 3600 + (d.minute : Int) * 60 + (d.second : Int) -
    (d.tzMin.getD 0) * 60

/-- The instant of a datetime in microseconds; Python's comparison of two
aware datetimes compares exactly this quantity. -/
def instantUsec (d : PyDateTime) : Int := toEpochSec d * 1000000 + (d.usec : Int)

/-- `int()` truncation toward zero of the float `e + usec/1e6` (`0 ≤ usec < 1e6`),
as in `int(dt.timestamp())`. -/
def pyIntTrunc (e : Int) (usec : Nat) : Int := if e < 0 ∧ usec ≠ 0 then e + 1 else e

/-- The epoch-second component of a transcription Redis key:
`int(timestamp.timestamp())`. -/
def keyEpoch (d : PyDateTime) : Int := pyIntTrunc (toEpochSec d) d.usec

/-- `parse_timestamp_safely` (main.py:84): parse an ISO timestamp, defaulting
naive results to UTC and any `ValueError` to `datetime.now(timezone.utc)`,
which is passed in as `now`. -/
def parse_timestamp_safely (now : PyDateTime) (s : String) : PyDateTime :=
  match fromisoformat s with
  | some d => if d.tzMin = none then { d with tzMin := some 0 } else d
  | none => now

/-- `dt.strftime("%H:%M")`. -/
def strfHM (d : PyDateTime) : String := String.mk (padNum 2 d.hour ++ ':' :: padNum 2 d.minute)

/-- `dt.strftime("%H:%M:%S")`. -/
def strfHMS (d : PyDateTime) : String :=
  String.mk (padNum 2 d.hour ++ ':' :: padNum 2 d.minute ++ ':' :: padNum 2 d.second)

/-- Python string `<` on code points (Lean `Char` values are code points). -/
def pystrLtL : List Char → List Char → Bool
  | [], [] => false
  | [], _ :: _ => true
  | _ :: _, [] => false
  | a :: as, b :: bs =>
    if a.toNat < b.toNat then true
    else if b.toNat < a.toNat then false
    else pystrLtL as bs

/-- Python string `<=`. -/
def pyStrLe (a b : String) : Bool := !(pystrLtL b.data a.data)

/-- Stable insertion of `x` after every element `y` of an already-sorted list
with `le y x`; `pySort` below is therefore a stable sort, the semantics of
Python's `list.sort(key=...)`. -/
def sinsert (le : α → α → Bool) (x : α) : List α → List α
  | [] => [x]
  | y :: ys => if le y x then y :: sinsert le x ys else x :: y :: ys

/-- Stable sort (Python `list.sort`): fold the input left to right, inserting
each element after its equals. -/
def pySort (le : α → α → Bool) (xs : List α) : List α :=
  xs.foldl (fun acc x => sinsert le x acc) []

theorem sinsert_perm (le : α → α → Bool) (x : α) (l : List α) :
    (sinsert le x l).Perm (x :: l) := by
  induction l with
  | nil => exact List.Perm.refl _
  | cons y ys ih =>
    unfold sinsert
    by_cases h : le y x = true
    · rw [if_pos h]
      exact ((ih.cons y).trans (List.Perm.swap x y ys)).symm.symm
    · rw [if_neg h]

theorem pySort_perm (le : α → α → Bool) (l : List α) : (pySort le l).Perm l := by
  suffices h : ∀ (l acc : List α),
      (l.foldl (fun acc x => sinsert le x acc) acc).Perm (acc ++ l) by
    simpa using h l []
  intro l
  induction l with
  | nil => intro acc; simp
  | cons x xs ih =>
    intro acc
    simp only [List.foldl_cons]
    refine (ih (sinsert le x acc)).trans ?_
    refine (List.Perm.append_right xs (sinsert_perm le x acc)).trans ?_
    exact List.perm_middle.symm

theorem mem_sinsert (le : α → α → Bool) (x a : α) (l : List α) :
    a ∈ sinsert le x l ↔ a = x ∨ a ∈ l := by
  rw [(sinsert_perm le x l).mem_iff]
  simp

theorem mem_pySort (le : α → α → Bool) (a : α) (l : List α) :
    a ∈ pySort le l ↔ a ∈ l :=
  (pySort_perm le l).mem_iff

theorem sinsert_pairwise (le : α → α → Bool)
    (htot : ∀ a b, le a b = true ∨ le b a = true)
    (htrans : ∀ a b c, le a b = true → le b c = true → le a c = true)
    (x : α) (l : List α) (hl : l.Pairwise (le · · = true)) :
    (sinsert le x l).Pairwise (le · · = true) := by
  induction l with
  | nil => simp [sinsert]
  | cons y ys ih =>
    rw [List.pairwise_cons] at hl
    obtain ⟨hy, hys⟩ := hl
    unfold sinsert
    by_cases h : le y x = true
    · rw [if_pos h]
      rw [List.pairwise_cons]
      constructor
      · intro z hz
        rw [mem_sinsert] at hz
        rcases hz with rfl | hz
        · exact h
        · exact hy z hz
      · exact ih hys
    · rw [if_neg h]
      have hxy : le x y = true := (htot x y).resolve_right (by simpa using h)
      rw [List.pairwise_cons]
      constructor
      · intro z hz
        rcases List.mem_cons.mp hz with rfl | hz
        · exact hxy
        · exact htrans x y z hxy (hy z hz)
      · exact List.pairwise_cons.mpr ⟨hy, hys⟩

theorem pySort_pairwise (le : α → α → Bool)
    (htot : ∀ a b, le a b = true ∨ le b a = true)
    (htrans : ∀ a b c, le a b = true → le b c = true → le a c = true)
    (l : List α) : (pySort le l).Pairwise (le · · = true) := by
  suffices h : ∀ (l acc : List α), acc.Pairwise (le · · = true) →
      (l.foldl (fun acc x => sinsert le x acc) acc).Pairwise (le · · = true) by
    exact h l [] (by simp)
  intro l
  induction l with
  | nil => intro acc h; simpa using h
  | cons x xs ih =>
    intro acc h
    simp only [List.foldl_cons]
    exact ih _ (sinsert_pairwise le htot htrans x acc h)


theorem pystrLtL_asymm : ∀ a b : List Char,
    pystrLtL a b = true → pystrLtL b a = false := by
  intro a
  induction a with
  | nil => intro b h; cases b <;> simp_all [pystrLtL]
  | cons x xs ih =>
    intro b h
    cases b with
    | nil => simp [pystrLtL] at h
    | cons y ys =>
      unfold pystrLtL at h ⊢
      by_cases h1 : x.toNat < y.toNat
      · rw [if_neg (show ¬ y.toNat < x.toNat by omega), if_pos h1]
      · rw [if_neg h1] at h
        by_cases h2 : y.toNat < x.toNat
        · rw [if_pos h2] at h
          exact absurd h (by simp)
        · rw [if_neg h2] at h
          rw [if_neg h2, if_neg h1]
          exact ih ys h

theorem pystrLtL_tri : ∀ a b : List Char,
    pystrLtL a b = true ∨ pystrLtL b a = true ∨ a = b := by
  intro a
  induction a with
  | nil => intro b; cases b <;> simp [pystrLtL]
  | cons x xs ih =>
    intro b
    cases b with
    | nil => right; left; rfl
    | cons y ys =>
      by_cases h1 : x.toNat < y.toNat
      · left; unfold pystrLtL; rw [if_pos h1]
      · by_cases h2 : y.toNat < x.toNat
        · right; left; unfold pystrLtL; rw [if_pos h2]
        · have htn : x.toNat = y.toNat := by omega
          have hxy : x = y := by
            apply Char.eq_of_val_eq
            apply UInt32.eq_of_val_eq
            apply Fin.eq_of_val_eq
            exact htn
          rcases ih ys with h | h | h
          · left; unfold pystrLtL; rw [if_neg h1, if_neg h2]; exact h
          · right; left; unfold pystrLtL
            rw [hxy]
            simp only [lt_irrefl, if_false, if_neg (lt_irrefl y.toNat)]
            exact h
          · right; right; rw [hxy, h]

theorem pystrLtL_trans : ∀ a b c : List Char,
    pystrLtL a b = true → pystrLtL b c = true → pystrLtL a c = true := by
  intro a
  induction a with
  | nil =>
    intro b c hab hbc
    cases b with
    | nil => simp [pystrLtL] at hab
    | cons y ys => cases c with
      | nil => simp [pystrLtL] at hbc
      | cons z zs => rfl
  | cons x xs ih =>
    intro b c hab hbc
    cases b with
    | nil => simp [pystrLtL] at hab
    | cons y ys =>
      cases c with
      | nil => simp [pystrLtL] at hbc
      | cons z zs =>
        unfold pystrLtL at hab hbc ⊢
        by_cases hxy : x.toNat < y.toNat
        · by_cases hyz : y.toNat < z.toNat
          · rw [if_pos (show x.toNat < z.toNat by omega)]
          · rw [if_neg hyz] at hbc
            by_cases hzy : z.toNat < y.toNat
            · rw [if_pos hzy] at hbc
              exact absurd hbc (by simp)
            · rw [if_pos (show x.toNat < z.toNat by omega)]
        · rw [if_neg hxy] at hab
          by_cases hyx : y.toNat < x.toNat
          · rw [if_pos hyx] at hab
            exact absurd hab (by simp)
          · rw [if_neg hyx] at hab
            have hxyeq : x.toNat = y.toNat := by omega
            by_cases hyz : y.toNat < z.toNat
            · rw [if_pos (show x.toNat < z.toNat by omega)]
            · rw [if_neg hyz] at hbc
              by_cases hzy : z.toNat < y.toNat
              · rw [if_pos hzy] at hbc
                exact absurd hbc (by simp)
              · rw [if_neg hzy] at hbc
                rw [if_neg (show ¬ x.toNat < z.toNat by omega),
                  if_neg (show ¬ z.toNat < x.toNat by omega)]
                exact ih ys zs hab hbc

theorem pyStrLe_total (a b : String) : pyStrLe a b = true ∨ pyStrLe b a = true := by
  unfold pyStrLe
  by_cases h : pystrLtL b.data a.data = true
  · right
    rw [pystrLtL_asymm _ _ h]
    rfl
  · left
    simp only [Bool.not_eq_true] at h
    rw [h]
    rfl

theorem pyStrLe_trans (a b c : String) :
    pyStrLe a b = true → pyStrLe b c = true → pyStrLe a c = true := by
  unfold pyStrLe
  intro hab hbc
  simp only [Bool.not_eq_true'] at hab hbc ⊢
  by_cases hca : pystrLtL c.data a.data = true
  · rcases pystrLtL_tri a.data b.data with h | h | h
    · have := pystrLtL_trans _ _ _ hca h
      rw [this] at hbc
      exact absurd hbc (by simp)
    · rw [h] at hab
      exact absurd hab (by simp)
    · rw [← h] at hbc
      rw [hca] at hbc
      exact absurd hbc (by simp)
  · simpa using hca

/-- ASCII whitespace stripped by Python `str.strip()` (the program's texts;
the full Unicode whitespace set is not needed by any claim). -/
def isPySpace (c : Char) : Bool :=
  c = ' ' || c = '\t' || c = '\n' || c = '\x0d' || c = '\x0b' || c = '\x0c'

/-- Python `str.strip()`. -/
def pyStrip (s : String) : String :=
  String.mk (((s.data.dropWhile isPySpace).reverse.dropWhile isPySpace).reverse)

/-- A transcription entry record as JSON-stored by `save_transcription`
(main.py:228): `{"timestamp": ..., "text": ..., "channel": ...}`. -/
structure StoredTrans where
  timestamp : String
  text : String
  channel : String
  deriving DecidableEq, Repr

/-- A stored transcription value together with its `setex` expiry instant
(epoch seconds). -/
structure TransVal where
  entry : StoredTrans
  expireAt : Int
  deriving DecidableEq, Repr

/-- A summary record as JSON-stored by `save_latest_summary_to_redis`
(main.py:165): `{"summary": ..., "updated": ..., "channel": ...}`. -/
structure StoredSummary where
  summary : String
  updated : String
  channel : String
  deriving DecidableEq, Repr

/-- The Redis keyspace touched by the program. `trans` holds the keys
`sr_now:transcriptions:<channel>:<epoch>` in structured form
`(channel, epoch)`; `sums` holds `sr_now:summary:<channel>` keyed by
channel. Order of the association list stands for Redis's unspecified
`keys()` iteration order. -/
structure RedisStore where
  trans : List ((String × Int) × TransVal)
  sums : List (String × StoredSummary)
  deriving DecidableEq, Repr

/-- Redis `SET`/`SETEX` on an association list: overwrite the value at an
existing key in place, else append. -/
def alSet [DecidableEq κ] (k : κ) (v : α) : List (κ × α) → List (κ × α)
  | [] => [(k, v)]
  | (k', v') :: rest => if k = k' then (k, v) :: rest else (k', v') :: alSet k v rest

/-- Redis `GET` on an association list. -/
def alGet [DecidableEq κ] (k : κ) : List (κ × α) → Option α
  | [] => none
  | (k', v) :: rest => if k' = k then some v else alGet k rest

/-- The `timestamp` argument of `save_transcription` /
`save_latest_summary_to_redis`: `None`, a string, a datetime, or any other
of a different type. -/
inductive TsArg
  | noneArg
  | strArg (s : String)
  | dtArg (d : PyDateTime)
  | otherArg
  deriving DecidableEq, Repr

/-- The shared timestamp-normalization preamble of `save_transcription`
(main.py:214) and `save_latest_summary_to_redis` (main.py:152): `None` and
non-datetime become `now`, strings are parsed safely, naive datetimes are
re-tagged UTC. -/
def normalizeTs (now : PyDateTime) : TsArg → PyDateTime
  | .noneArg => now
  | .strArg s => parse_timestamp_safely now s
  | .dtArg d => if d.tzMin = none then { d with tzMin := some 0 } else d
  | .otherArg => now

/-- `get_latest_summary_from_redis` (main.py:132). -/
def get_latest_summary_from_redis (c : Option RedisStore) (ch : String) :
    Option StoredSummary :=
  match c with
  | none => none
  | some s => alGet ch s.sums

/-- `save_latest_summary_to_redis` (main.py:147); returns the new client
state (`none` stays `none`: the guard returns immediately without a write). -/
def save_latest_summary_to_redis (c : Option RedisStore) (now : PyDateTime)
    (ch summary : String) (ts : TsArg) : Option RedisStore :=
  match c with
  | none => none
  | some s =>
    let t := normalizeTs now ts
    some { s with sums := alSet ch ⟨summary, isoformat t, ch⟩ s.sums }

/-- `int((now - timedelta(minutes=60)).timestamp())`, the sweep cutoff of
`cleanup_old_transcriptions` (main.py:252). -/
def hourCutoff (now : PyDateTime) : Int := pyIntTrunc (toEpochSec now - 3600) now.usec

/-- `cleanup_old_transcriptions` (main.py:246): delete every key of the
given channel (or of all channels) whose key epoch is older than the
60-minute cutoff. -/
def cleanup_old_transcriptions (c : Option RedisStore) (now : PyDateTime)
    (chOpt : Option String) : Option RedisStore :=
  match c with
  | none => none
  | some s =>
    let cutoff := hourCutoff now
    some { s with trans := s.trans.filter (fun kv =>
      match chOpt with
      | some ch => !(decide (kv.1.1 = ch) && decide (kv.1.2 < cutoff))
      | none => !(decide (kv.1.2 < cutoff))) }

/-- `save_transcription` (main.py:209): normalize the timestamp, `setex` the
entry under `(channel, int(timestamp.timestamp()))` with a 24-hour TTL, then
sweep this channel. -/
def save_transcription (c : Option RedisStore) (now : PyDateTime)
    (ch text : String) (ts : TsArg) : Option RedisStore :=
  match c with
  | none => none
  | some s =>
    let t := normalizeTs now ts
    let entry : StoredTrans := ⟨isoformat t, pyStrip text, ch⟩
    let s1 : RedisStore :=
      { s with trans := alSet (ch, keyEpoch t) ⟨entry, toEpochSec now + 86400⟩ s.trans }
    cleanup_old_transcriptions (some s1) now (some ch)

/-- The keys Redis would report alive at `now` (TTL not yet elapsed). -/
def liveTrans (s : RedisStore) (now : PyDateTime) : List ((String × Int) × TransVal) :=
  s.trans.filter (fun kv => decide (toEpochSec now < kv.2.expireAt))

/-- `load_transcription_history` (main.py:178): fetch all live entries of
the channel (or of all channels), then stable-sort ascending by the raw
`timestamp` string. -/
def load_transcription_history (c : Option RedisStore) (now : PyDateTime)
    (chOpt : Option String) : List StoredTrans :=
  match c with
  | none => []
  | some s =>
    let kvs := (liveTrans s now).filter (fun kv =>
      match chOpt with
      | some ch => decide (kv.1.1 = ch)
      | none => true)
    pySort (fun a b => pyStrLe a.timestamp b.timestamp) (kvs.map (fun kv => kv.2.entry))

/-- The window filter `parse_timestamp_safely(entry["timestamp"]) > now -
timedelta(minutes=minutes)`, compared on the instant scale as Python
compares aware datetimes. -/
def inWindow (now : PyDateTime) (minutes : Nat) (e : StoredTrans) : Bool :=
  decide (instantUsec now - (minutes : Int) * 60 * 1000000 <
    instantUsec (parse_timestamp_safely now e.timestamp))

/-- Python `l[-n:]`. -/
def lastN (n : Nat) (l : List α) : List α := l.drop (l.length - n)

/-- Python `s[:n]` (code-point slice). -/
def pyTake (n : Nat) (s : String) : String := String.mk (s.data.take n)

/-- A Python `for` loop whose body may raise: stop at the first `.error`. -/
def mapOrFail (f : α → Except ε β) : List α → Except ε (List β)
  | [] => .ok []
  | x :: xs =>
    match f x with
    | .error e => .error e
    | .ok y =>
      match mapOrFail f xs with
      | .error e => .error e
      | .ok ys => .ok (y :: ys)

/-- One line of the context window (main.py:291-292):
`[HH:MM] <text[:200]>...`, where the hour/minute come from a bare
`datetime.fromisoformat` — which raises `ValueError` on a malformed stored
timestamp (modelled as `.error`). -/
def fmtContextLine (e : StoredTrans) : Except String String :=
  match fromisoformat e.timestamp with
  | none => .error ("Invalid isoformat string: " ++ e.timestamp)
  | some dt => .ok ("[" ++ strfHM dt ++ "] " ++ pyTake 200 e.text ++ "...")

/-- The body of `get_recent_context` after the history load (main.py:276-294):
empty string when there is no history or nothing within the horizon;
otherwise the last 5 recent entries formatted one per line, newline-joined.
An uncaught `ValueError` from the formatting step surfaces as `.error`. -/
def contextFromHistory (history : List StoredTrans) (now : PyDateTime)
    (minutes : Nat) : Except String String :=
  if history = [] then .ok ""
  else
    let recent := history.filter (inWindow now minutes)
    if recent = [] then .ok ""
    else
      match mapOrFail fmtContextLine (lastN 5 recent) with
      | .error e => .error e
      | .ok parts => .ok (String.intercalate "\n" parts)

/-- `get_recent_context` (main.py:273). -/
def get_recent_context (c : Option RedisStore) (now : PyDateTime) (ch : String)
    (minutes : Nat) : Except String String :=
  contextFromHistory (load_transcription_history c now (some ch)) now minutes

/-- One entry of the static `CHANNELS` configuration (main.py:60). -/
structure ChannelCfg where
  name : String
  stream_url : String
  recording_length : Nat
  recording_interval : Nat
  deriving DecidableEq, Repr

/-- The static channel configuration (main.py:60-79). -/
def CHANNELS : List ChannelCfg :=
  [⟨"P1", "https://edge2.sr.se/p1-mp3-96", 30, 120⟩,
   ⟨"P3", "https://edge2.sr.se/p3-mp3-96", 30, 300⟩,
   ⟨"P4-Gotland", "https://edge1.sr.se/p4gotl-mp3-96", 30, 120⟩]

/-- An HTTP outcome of an endpoint: 200 with a body, 404, or 500. -/
inductive ApiOut (α : Type)
  | ok (body : α)
  | notFound (err : String)
  | serverError (err : String)
  deriving DecidableEq, Repr

/-- An element of the `/transcriptions/<channel>` response list
(main.py:474-477): text plus `strftime("%H:%M:%S")` of the safely parsed
timestamp. -/
structure FmtTrans where
  text : String
  time_formatted : String
  deriving DecidableEq, Repr

/-- The `/transcriptions/<channel>` response body: the list, and the
`channel` / `message` fields of the two 200-shapes the handler returns. -/
structure TransRespBody where
  transcriptions : List FmtTrans
  channel : Option String
  message : Option String
  deriving DecidableEq, Repr

/-- The `/transcriptions/<channel_name>` handler `get_channel_transcriptions`
(main.py:454-495): 404 for an unconfigured channel; a 200 with an empty list
and a message when the store has no entries at all; otherwise the last-hour
entries formatted and stable-sorted descending by the `"%H:%M:%S"` string. -/
def get_channel_transcriptions_ep (c : Option RedisStore) (now : PyDateTime)
    (ch : String) : ApiOut TransRespBody :=
  if !(CHANNELS.any (fun cfg => cfg.name == ch)) then
    .notFound ("Channel " ++ ch ++ " not found")
  else
    let history := load_transcription_history c now (some ch)
    if history = [] then .ok ⟨[], none, some ("No transcriptions found for " ++ ch)⟩
    else
      let recent := (history.filter (inWindow now 60)).map
        (fun e => (⟨e.text, strfHMS (parse_timestamp_safely now e.timestamp)⟩ : FmtTrans))
      let sorted := pySort (fun a b => pyStrLe b.time_formatted a.time_formatted) recent
      .ok ⟨sorted, some ch, none⟩

/-- An element of the summary endpoints' `transcriptions` list
(main.py:423-427): text plus the raw stored timestamp string. -/
structure TimeTrans where
  text : String
  time : String
  deriving DecidableEq, Repr

/-- The recent-transcriptions sub-computation of the summary endpoints
(main.py:414-433): last-hour entries as `{text, time}`, stable-sorted
descending by the raw timestamp string. -/
def recentTimeTrans (c : Option RedisStore) (now : PyDateTime) (ch : String) :
    List TimeTrans :=
  let history := load_transcription_history c now (some ch)
  if history = [] then []
  else
    pySort (fun a b => pyStrLe b.time a.time)
      ((history.filter (inWindow now 60)).map (fun e => (⟨e.text, e.timestamp⟩ : TimeTrans)))

/-- The in-memory global maps `channel_summaries` / `channel_last_updated`
(main.py:55-56); dict `.get` returns `None` for a missing key. -/
structure MemState where
  channel_summaries : List (String × Option String)
  channel_last_updated : List (String × Option PyDateTime)
  processing_status : List (String × String)
  deriving DecidableEq, Repr

/-- The `/channels/<channel_name>` response body. -/
structure SummaryRespBody where
  channel : String
  summary : Option String
  summary_updated : Option String
  transcriptions : List TimeTrans
  deriving DecidableEq, Repr

/-- The `/channels/<channel_name>` handler `get_channel_summary`
(main.py:404-452): 404 for an unconfigured channel; otherwise the Redis
summary record if present, else the in-memory fallback (possibly null
summary and timestamp), always carrying the recent transcriptions. -/
def get_channel_summary_ep (c : Option RedisStore) (mem : MemState)
    (now : PyDateTime) (ch : String) : ApiOut SummaryRespBody :=
  if !(CHANNELS.any (fun cfg => cfg.name == ch)) then
    .notFound ("Channel " ++ ch ++ " not found")
  else
    let recent := recentTimeTrans c now ch
    match get_latest_summary_from_redis c ch with
    | some rs => .ok ⟨rs.channel, some rs.summary, some rs.updated, recent⟩
    | none =>
      .ok ⟨ch, (alGet ch mem.channel_summaries).getD none,
        (match alGet ch mem.channel_last_updated with
         | some (some dt) => some (isoformat dt)
         | _ => none),
        recent⟩

/-- The fixed fallback string returned by `summarize` when the chat
completion raises (main.py:522). -/
def summarizeFallback : String := "Kunde inte genomföra transkribering..."

/-- `summarize` (main.py:497-522) given the chat collaborator's outcome:
`get_recent_context` runs OUTSIDE the try/except, so its `ValueError`
propagates; a chat failure degrades to the fixed fallback string. -/
def summarize (c : Option RedisStore) (now : PyDateTime) (ch : String)
    (chatRes : Except String String) : Except String String :=
  match get_recent_context c now ch 10 with
  | .error e => .error e
  | .ok _ctx =>
    match chatRes with
    | .ok out => .ok (pyStrip out)
    | .error _ => .ok summarizeFallback

/-- Outcome of one `get_audio_chunk` invocation (main.py:296-339). In every
arm the `NamedTemporaryFile(delete=False)` has already been created on disk;
ffmpeg failure or timeout raises without deleting it. -/
inductive CaptureOutcome
  | ok (path : String)
  | ffmpegFail (path : String) (stderr : String)
  | timeout (path : String)
  deriving DecidableEq, Repr

/-- `get_audio_chunk` (main.py:296): returns the temp path on success; on
ffmpeg failure or timeout raises (`.error`) with the file left on disk. -/
def get_audio_chunk (fs : List String) (co : CaptureOutcome) (seconds : Nat) :
    Except String String × List String :=
  match co with
  | .ok p => (.ok p, fs ++ [p])
  | .ffmpegFail p stderr => (.error ("Failed to record audio: " ++ stderr), fs ++ [p])
  | .timeout p =>
    (.error ("Recording timed out after " ++ toString (seconds + 30) ++ " seconds"), fs ++ [p])

/-- The external outcomes driving one worker cycle: the capture result, the
transcription call's result, the chat completion's result, and the cycle's
clock reading (`datetime.now(timezone.utc)`, constant within the cycle). -/
structure CycleEnv where
  capture : CaptureOutcome
  transcribeRes : Except String String
  chatRes : Except String String
  now : PyDateTime
  deriving Repr

/-- Mutable process state threaded through worker cycles: the Redis client,
the set of temp files on disk, and the in-memory maps. -/
structure SysState where
  client : Option RedisStore
  fs : List String
  mem : MemState
  deriving DecidableEq, Repr

/-- Observable actions of one worker cycle, in order. `publishSummary`
marks the publish step: the in-memory summary update together with the
`save_latest_summary_to_redis` call. `sleepEvt` is the inter-cycle
`time.sleep(recording_interval)`. -/
inductive Event
  | transAppend (ch text : String)
  | publishSummary (ch summary : String) (ts : PyDateTime)
  | sleepEvt (secs : Nat)
  deriving DecidableEq, Repr

/-- The in-memory updates shared by both publish paths of `process_channel`:
`channel_summaries[ch]`, `channel_last_updated[ch]`, `processing_status[ch]`. -/
def memPublish (mem : MemState) (ch summary : String) (t : PyDateTime)
    (status : String) : MemState :=
  ⟨alSet ch (some summary) mem.channel_summaries,
   alSet ch (some t) mem.channel_last_updated,
   alSet ch status mem.processing_status⟩

/-- The `finally` block of `process_channel` (main.py:588-591): unlink the
temp file only if the local `chunk_path` was ever assigned. -/
def cycleCleanup (chunkPath : Option String) (fs : List String) : List String :=
  match chunkPath with
  | none => fs
  | some p => fs.erase p

/-- The `except` branch of `process_channel` (main.py:572-586): build the
fallback summary embedding the first 100 characters of `str(e)`, update the
in-memory maps, and save the error summary to Redis. -/
def errorPublish (ch : String) (e : String) (t : PyDateTime) (st : SysState) :
    SysState × Event :=
  let msg := "Processing error occurred: " ++ pyTake 100 e
  ({ st with
      client := save_latest_summary_to_redis st.client t ch msg (.dtArg t),
      mem := memPublish st.mem ch msg t ("Error: " ++ pyTake 50 e) },
   .publishSummary ch msg t)

/-- One iteration of the `while True` loop of `process_channel`
(main.py:539-595): capture, transcribe, persist, summarize, publish — with
the `except` fallback publish on any raise from capture through
summarization — then the `finally` cleanup and the sleep. -/
def runCycle (cfg : ChannelCfg) (env : CycleEnv) (st : SysState) :
    SysState × List Event :=
  let ch := cfg.name
  let (chunkRes, fs1) := get_audio_chunk st.fs env.capture cfg.recording_length
  let st1 : SysState := { st with fs := fs1 }
  match chunkRes with
  | .error e =>
    let (st2, evt) := errorPublish ch e env.now st1
    ({ st2 with fs := cycleCleanup none st2.fs }, [evt, .sleepEvt cfg.recording_interval])
  | .ok path =>
    match env.transcribeRes with
    | .error e =>
      let (st2, evt) := errorPublish ch e env.now st1
      ({ st2 with fs := cycleCleanup (some path) st2.fs },
       [evt, .sleepEvt cfg.recording_interval])
    | .ok text =>
      let st2 : SysState :=
        { st1 with client := save_transcription st1.client env.now ch text .noneArg }
      match summarize st2.client env.now ch env.chatRes with
      | .error e =>
        let (st3, evt) := errorPublish ch e env.now st2
        ({ st3 with fs := cycleCleanup (some path) st3.fs },
         [.transAppend ch text, evt, .sleepEvt cfg.recording_interval])
      | .ok summary =>
        let st3 : SysState :=
          { st2 with
              client := save_latest_summary_to_redis st2.client env.now ch summary
                (.dtArg env.now),
              mem := memPublish st2.mem ch summary env.now "Running" }
        ({ st3 with fs := cycleCleanup (some path) st3.fs },
         [.transAppend ch text, .publishSummary ch summary env.now,
          .sleepEvt cfg.recording_interval])

/-- The worker loop: one `runCycle` per environment, threading the state;
the per-cycle event traces are collected. Totality of this definition is the
loop-survival property: no cycle outcome stops the recursion. -/
def runLoop (cfg : ChannelCfg) (envs : List CycleEnv) (st : SysState) :
    SysState × List (List Event) :=
  match envs with
  | [] => (st, [])
  | e :: rest =>
    let (st1, evts) := runCycle cfg e st
    let (st2, traces) := runLoop cfg rest st1
    (st2, evts :: traces)

/-- The first exception (if any) raised between the capture step and the
summarization step of a cycle, mirroring `runCycle`'s control flow. -/
def cycleError (cfg : ChannelCfg) (env : CycleEnv) (st : SysState) : Option String :=
  match (get_audio_chunk st.fs env.capture cfg.recording_length).1 with
  | .error e => some e
  | .ok _ =>
    match env.transcribeRes with
    | .error e => some e
    | .ok text =>
      match summarize (save_transcription st.client env.now cfg.name text .noneArg)
          env.now cfg.name env.chatRes with
      | .error e => some e
      | .ok _ => none

/-- The summary-publish events of a trace. -/
def publishEvents (evts : List Event) : List Event :=
  evts.filter (fun e => match e with | .publishSummary _ _ _ => true | _ => false)

/-- Redis `keys(pattern)` as a state-threaded operation: returns the live
keys matching the channel pattern together with the (unchanged) client
state. Used by the instrumented reader below to make "reads perform no
writes" a provable statement instead of a modelling assumption. -/
def redisKeys_st (s : RedisStore) (now : PyDateTime) (chOpt : Option String) :
    List (String × Int) × RedisStore :=
  (((liveTrans s now).filter (fun kv =>
      match chOpt with
      | some ch => decide (kv.1.1 = ch)
      | none => true)).map (fun kv => kv.1), s)

/-- Redis `get(key)` as a state-threaded operation. -/
def redisGet_st (s : RedisStore) (now : PyDateTime) (k : String × Int) :
    Option TransVal × RedisStore :=
  (match alGet k s.trans with
   | some v => if toEpochSec now < v.expireAt then some v else none
   | none => none, s)

/-- The `for key in keys: entry_data = redis_client.get(key)` loop of
`load_transcription_history`, threading the client state through each `get`. -/
def getAll_st (s : RedisStore) (now : PyDateTime) :
    List (String × Int) → List StoredTrans × RedisStore
  | [] => ([], s)
  | k :: ks =>
    let (v, s1) := redisGet_st s now k
    let (rest, s2) := getAll_st s1 now ks
    match v with
    | some tv => (tv.entry :: rest, s2)
    | none => (rest, s2)

/-- `load_transcription_history` with the client state explicitly threaded
through every Redis operation it performs. -/
def load_transcription_history_st (c : Option RedisStore) (now : PyDateTime)
    (chOpt : Option String) : List StoredTrans × Option RedisStore :=
  match c with
  | none => ([], none)
  | some s =>
    let (ks, s1) := redisKeys_st s now chOpt
    let (entries, s2) := getAll_st s1 now ks
    (pySort (fun a b => pyStrLe a.timestamp b.timestamp) entries, some s2)

/-- `get_recent_context` with the client state explicitly threaded through
its single collaborator call (`load_transcription_history`). -/
def get_recent_context_st (c : Option RedisStore) (now : PyDateTime) (ch : String)
    (minutes : Nat) : Except String String × Option RedisStore :=
  let (history, c1) := load_transcription_history_st c now (some ch)
  (contextFromHistory history now minutes, c1)

/-! ## Shared concrete fixtures for witnesses and counterexamples -/

/-- 2024-01-01T00:00:00+00:00. -/
def dt0 : PyDateTime := ⟨2024, 1, 1, 0, 0, 0, 0, some 0⟩

/-- The `P1` channel configuration. -/
def cfgP1 : ChannelCfg := ⟨"P1", "https://edge2.sr.se/p1-mp3-96", 30, 120⟩

/-- Empty in-memory maps (process start). -/
def emptyMem : MemState := ⟨[], [], []⟩

/-- A store holding one `P1` transcription entry whose stored timestamp
string is not ISO-parseable (e.g. written by an earlier revision or after
partial corruption); its TTL is far in the future. -/
def badTsStore : RedisStore :=
  ⟨[(("P1", 100), ⟨⟨"not-a-timestamp", "hej", "P1"⟩, 1000000000000⟩)], []⟩

/-! ## Helper lemmas -/

theorem getAll_st_state (s : RedisStore) (now : PyDateTime) (ks : List (String × Int)) :
    (getAll_st s now ks).2 = s := by
  induction ks with
  | nil => rfl
  | cons k ks ih =>
    unfold getAll_st redisGet_st
    cases alGet k s.trans with
    | none => simpa using ih
    | some v =>
      by_cases h : toEpochSec now < v.expireAt <;> simp [h, ih]

theorem load_st_state (c : Option RedisStore) (now : PyDateTime) (chOpt : Option String) :
    (load_transcription_history_st c now chOpt).2 = c := by
  cases c with
  | none => rfl
  | some s =>
    unfold load_transcription_history_st redisKeys_st
    simp [getAll_st_state]

theorem runLoop_length (cfg : ChannelCfg) (envs : List CycleEnv) (st : SysState) :
    ((runLoop cfg envs st).2).length = envs.length := by
  induction envs generalizing st with
  | nil => rfl
  | cons e rest ih =>
    unfold runLoop
    simp [ih]

/-! ## Claims -/

/-- **C10** (confirmed). When no backing-store client is configured
(`redis_client is None`), every store operation is a total silent no-op at
the public interface: `load_transcription_history` returns `[]`,
`get_latest_summary_from_redis` returns `None`, `save_transcription` and
`save_latest_summary_to_redis` return without writing (the client state stays
`none`) and raise nothing (they are total functions), and the read
endpoints still respond 200, serving the in-memory fallback values: the
transcription endpoint returns the empty list, and the channel-summary
endpoint serves the `channel_summaries` / `channel_last_updated` in-memory
values. -/
theorem claim_C10 :
    (∀ now chOpt, load_transcription_history none now chOpt = []) ∧
    (∀ ch, get_latest_summary_from_redis none ch = none) ∧
    (∀ now ch text ts, save_transcription none now ch text ts = none) ∧
    (∀ now ch s ts, save_latest_summary_to_redis none now ch s ts = none) ∧
    (∀ now, get_channel_transcriptions_ep none now "P1" =
      .ok ⟨[], none, some "No transcriptions found for P1"⟩) ∧
    (∀ mem now, get_channel_summary_ep none mem now "P1" =
      .ok ⟨"P1", (alGet "P1" mem.channel_summaries).getD none,
        (match alGet "P1" mem.channel_last_updated with
         | some (some dt) => some (isoformat dt)
         | _ => none), []⟩) :=
  ⟨fun _ _ => rfl, fun _ => rfl, fun _ _ _ _ => rfl, fun _ _ _ _ => rfl,
   fun _ => rfl, fun _ _ => rfl⟩

/-- **C9** (confirmed). The context window builder is pure given its inputs:
threading the Redis client state through every operation it performs
(`keys`, the per-key `get`s), the state it returns is the state it was
given — it performs no writes — and a second invocation on that returned
state yields the identical output. -/
theorem claim_C9 (c : Option RedisStore) (now : PyDateTime) (ch : String) (m : Nat) :
    (get_recent_context_st c now ch m).2 = c ∧
    (get_recent_context_st (get_recent_context_st c now ch m).2 now ch m).1 =
      (get_recent_context_st c now ch m).1 := by
  have h : (get_recent_context_st c now ch m).2 = c := by
    unfold get_recent_context_st
    simp [load_st_state]
  exact ⟨h, by rw [h]⟩

/-- **C8** (code_bug). The spec mandates that every temporary audio artifact
created during capture is removed by cycle end via a guaranteed-release
path. The code's `finally` block only unlinks `chunk_path`, which is still
`None` when `get_audio_chunk` raises — yet `get_audio_chunk` creates the
`NamedTemporaryFile(delete=False)` *before* running ffmpeg and does not
delete it on failure. Evaluation at the failing input: a cycle whose ffmpeg
run exits nonzero leaves the temp file on disk after the cycle (and after a
second full cycle). -/
theorem claim_C8 :
    ((runCycle cfgP1 ⟨.ffmpegFail "/tmp/tmpa1.wav" "boom", .error "x", .error "x", dt0⟩
        ⟨none, [], emptyMem⟩).1.fs = ["/tmp/tmpa1.wav"]) ∧
    ((runCycle cfgP1 ⟨.ok "/tmp/tmpa2.wav", .ok "text", .ok "sum", dt0⟩
        (runCycle cfgP1 ⟨.ffmpegFail "/tmp/tmpa1.wav" "boom", .error "x", .error "x", dt0⟩
          ⟨none, [], emptyMem⟩).1).1.fs = ["/tmp/tmpa1.wav"]) := by
  constructor <;> rfl

/-- **C7** (code_bug). The spec requires windowed reads to substitute "now"
for malformed stored instants rather than raising — and
`parse_timestamp_safely` exists for exactly that and is used in
`get_recent_context`'s window filter — but the formatting loop one line
later calls bare `datetime.fromisoformat`, which raises `ValueError` on the
malformed timestamp that the safe filter just admitted. Evaluation at the
failing input: a store holding one `P1` entry with timestamp
"not-a-timestamp" makes `get_recent_context` raise instead of completing. -/
theorem claim_C7 :
    get_recent_context (some badTsStore) dt0 "P1" 15 =
      .error "Invalid isoformat string: not-a-timestamp" ∧
    load_transcription_history (some badTsStore) dt0 (some "P1") =
      [⟨"not-a-timestamp", "hej", "P1"⟩] := by
  constructor <;> rfl

/-- **C1** (confirmed). For every channel worker cycle in which any step
from capture through summarization raises (`cycleError … = some e`), the
cycle still performs exactly one Summary Cache publish — the fallback
summary embedding `str(e)` truncated to 100 characters — and that publish
precedes the cycle-ending sleep (it is the sole publish event of the trace,
whose last event is the sleep); and the worker loop never exits on a single
failure: prefixing a failing cycle still yields one completed trace per
scheduled cycle. -/
theorem claim_C1 (cfg : ChannelCfg) (env : CycleEnv) (st : SysState) (e : String)
    (h : cycleError cfg env st = some e) :
    publishEvents (runCycle cfg env st).2 =
      [.publishSummary cfg.name ("Processing error occurred: " ++ pyTake 100 e) env.now] ∧
    (runCycle cfg env st).2.getLast? = some (.sleepEvt cfg.recording_interval) ∧
    (∀ rest, ((runLoop cfg (env :: rest) st).2).length = rest.length + 1) := by
  refine ⟨?_, ?_, fun rest => by rw [runLoop_length]; simp⟩ <;>
  · cases hc : env.capture with
    | ffmpegFail p stderr =>
      simp only [cycleError, get_audio_chunk, hc] at h
      obtain rfl := (Option.some.injEq _ _).mp h
      simp [runCycle, get_audio_chunk, hc, errorPublish, publishEvents, cycleCleanup]
    | timeout p =>
      simp only [cycleError, get_audio_chunk, hc] at h
      obtain rfl := (Option.some.injEq _ _).mp h
      simp [runCycle, get_audio_chunk, hc, errorPublish, publishEvents, cycleCleanup]
    | ok p =>
      cases ht : env.transcribeRes with
      | error e' =>
        simp only [cycleError, get_audio_chunk, hc, ht] at h
        obtain rfl := (Option.some.injEq _ _).mp h
        simp [runCycle, get_audio_chunk, hc, ht, errorPublish, publishEvents, cycleCleanup]
      | ok t =>
        simp only [cycleError, get_audio_chunk, hc, ht] at h
        cases hs : summarize (save_transcription st.client env.now cfg.name t .noneArg)
            env.now cfg.name env.chatRes with
        | error e' =>
          rw [hs] at h
          obtain rfl := (Option.some.injEq _ _).mp h
          simp [runCycle, get_audio_chunk, hc, ht, hs, errorPublish, publishEvents,
            cycleCleanup]
        | ok s' =>
          rw [hs] at h
          exact absurd h (by simp)

/-- A concrete failing cycle environment (ffmpeg exits nonzero) and a fresh
process state. -/
def envCapFail : CycleEnv := ⟨.ffmpegFail "/tmp/t.wav" "boom", .error "x", .error "x", dt0⟩

def stEmpty : SysState := ⟨none, [], emptyMem⟩

/-- Witness for C1: a concrete failing cycle with the hypothesis discharged
by evaluation. -/
theorem claim_C1_witness :
    publishEvents (runCycle cfgP1 envCapFail stEmpty).2 =
      [.publishSummary cfgP1.name
        ("Processing error occurred: " ++ pyTake 100 "Failed to record audio: boom")
        envCapFail.now] ∧
    (runCycle cfgP1 envCapFail stEmpty).2.getLast? =
      some (.sleepEvt cfgP1.recording_interval) :=
  ⟨(claim_C1 cfgP1 envCapFail stEmpty "Failed to record audio: boom" rfl).1,
   (claim_C1 cfgP1 envCapFail stEmpty "Failed to record audio: boom" rfl).2.1⟩

/-- **C2** (corrected). When the summarization (chat completion) call fails
but the rest of the cycle succeeds, the published summary for that cycle is
the *fixed* fallback string `summarizeFallback`
("Kunde inte genomföra transkribering...") — a non-null string, published
exactly once — independent of the transcript; contrary to the original
claim it does not echo the first 100 characters of the raw transcript. -/
theorem claim_C2 (cfg : ChannelCfg) (env : CycleEnv) (st : SysState) (p t err : String)
    (hc : env.capture = .ok p)
    (ht : env.transcribeRes = .ok t)
    (hch : env.chatRes = .error err)
    (hctx : ∃ s', get_recent_context (save_transcription st.client env.now cfg.name t .noneArg)
        env.now cfg.name 10 = .ok s') :
    publishEvents (runCycle cfg env st).2 =
      [.publishSummary cfg.name summarizeFallback env.now] := by
  obtain ⟨s', hs'⟩ := hctx
  have hsum : summarize (save_transcription st.client env.now cfg.name t .noneArg)
      env.now cfg.name env.chatRes = .ok summarizeFallback := by
    unfold summarize
    rw [hs', hch]
  simp [runCycle, get_audio_chunk, hc, ht, hsum, publishEvents, cycleCleanup]

/-- Transcripts longer than 100 characters, differing in every character. -/
def tLong1 : String := String.mk (List.replicate 120 'a')

def tLong2 : String := String.mk (List.replicate 120 'b')

/-- A process state whose Redis client is configured with an empty store. -/
def stWithStore : SysState := ⟨some ⟨[], []⟩, [], emptyMem⟩

def envChatFail1 : CycleEnv := ⟨.ok "/tmp/t.wav", .ok tLong1, .error "connection refused", dt0⟩

def envChatFail2 : CycleEnv := ⟨.ok "/tmp/t.wav", .ok tLong2, .error "connection refused", dt0⟩

/-- Counterexample to C2 as stated: two cycles with summarization down and
*different* transcripts (different first-100-characters) publish the *same*
summary, whose length (38) is even shorter than 100 — so the published
summary cannot equal any template embedding the transcript's first 100
characters. -/
theorem claim_C2_counterexample :
    publishEvents (runCycle cfgP1 envChatFail1 stWithStore).2 =
      [.publishSummary "P1" summarizeFallback dt0] ∧
    publishEvents (runCycle cfgP1 envChatFail2 stWithStore).2 =
      [.publishSummary "P1" summarizeFallback dt0] ∧
    pyTake 100 tLong1 ≠ pyTake 100 tLong2 ∧
    summarizeFallback.length < 100 :=
  ⟨rfl, rfl, by decide, by decide⟩

/-- Witness for C2 (amended): the theorem applied at a concrete
chat-failure cycle. -/
theorem claim_C2_witness :
    publishEvents (runCycle cfgP1 envChatFail1 stWithStore).2 =
      [.publishSummary cfgP1.name summarizeFallback envChatFail1.now] :=
  claim_C2 cfgP1 envChatFail1 stWithStore "/tmp/t.wav" tLong1 "connection refused"
    rfl rfl rfl ⟨_, rfl⟩

theorem mapOrFail_ok (f : α → Except ε β) :
    ∀ (l : List α) (r : List β), mapOrFail f l = .ok r →
      r.length = l.length ∧ ∀ y ∈ r, ∃ x ∈ l, f x = .ok y := by
  intro l
  induction l with
  | nil =>
    intro r h
    simp only [mapOrFail, Except.ok.injEq] at h
    subst h
    simp
  | cons x xs ih =>
    intro r h
    simp only [mapOrFail] at h
    cases hf : f x with
    | error e =>
      simp only [hf] at h
      exact absurd h (by simp)
    | ok y =>
      simp only [hf] at h
      cases hm : mapOrFail f xs with
      | error e =>
        simp only [hm] at h
        exact absurd h (by simp)
      | ok ys =>
        simp only [hm, Except.ok.injEq] at h
        subst h
        obtain ⟨hlen, hmem⟩ := ih ys hm
        refine ⟨by simp [hlen], ?_⟩
        intro z hz
        rcases List.mem_cons.mp hz with rfl | hz
        · exact ⟨x, List.mem_cons_self x xs, hf⟩
        · obtain ⟨w, hw, hfw⟩ := hmem z hz
          exact ⟨w, List.mem_cons_of_mem x hw, hfw⟩

theorem lastN_length_le (n : Nat) (l : List α) : (lastN n l).length ≤ n := by
  unfold lastN
  rw [List.length_drop]
  omega

theorem lastN_sublist (n : Nat) (l : List α) : (lastN n l).Sublist l :=
  List.drop_sublist _ _

theorem length_strfHM (d : PyDateTime) : (strfHM d).length = 5 := by
  show (padNum 2 d.hour ++ ':' :: padNum 2 d.minute).length = 5
  simp [length_padNum]

theorem length_pyTake (n : Nat) (s : String) : (pyTake n s).length ≤ n := by
  show (s.data.take n).length ≤ n
  simp [List.length_take]

theorem fmtContextLine_length (e : StoredTrans) (s : String)
    (h : fmtContextLine e = .ok s) : s.length ≤ 211 := by
  unfold fmtContextLine at h
  cases hp : fromisoformat e.timestamp with
  | none => rw [hp] at h; exact absurd h (by simp)
  | some dt =>
    rw [hp] at h
    obtain rfl := (Except.ok.inj h).symm
    rw [String.length_append, String.length_append, String.length_append,
      String.length_append, length_strfHM]
    have := length_pyTake 200 e.text
    have h1 : ("[" : String).length = 1 := rfl
    have h2 : ("] " : String).length = 2 := rfl
    have h3 : ("..." : String).length = 3 := rfl
    omega

/-- **C3** (corrected). For every channel and store content, the context
window builder returns the empty string when nothing falls within the
horizon; otherwise (whenever formatting completes) it returns the newline
join of at most 5 lines, each line at most 211 characters long
(8-character `[HH:MM] ` prefix + 200 truncated text characters + 3-dot
ellipsis) — not the claimed ~203 — and the selected entries are ordered
ascending by their *stored timestamp string* (which is instant order only
for uniformly formatted offsets), regardless of the number of entries or
their text length. -/
theorem claim_C3 (c : Option RedisStore) (now : PyDateTime) (ch : String) (minutes : Nat) :
    ((load_transcription_history c now (some ch)).filter (inWindow now minutes) = [] →
      get_recent_context c now ch minutes = .ok "") ∧
    (∀ parts, mapOrFail fmtContextLine
        (lastN 5 ((load_transcription_history c now (some ch)).filter (inWindow now minutes))) =
          .ok parts →
      get_recent_context c now ch minutes = .ok (String.intercalate "\n" parts) ∧
      parts.length ≤ 5 ∧ (∀ p ∈ parts, p.length ≤ 211)) ∧
    List.Pairwise (fun a b => pyStrLe a.timestamp b.timestamp = true)
      (lastN 5 ((load_transcription_history c now (some ch)).filter (inWindow now minutes))) := by
  refine ⟨?_, ?_, ?_⟩
  · intro h
    unfold get_recent_context contextFromHistory
    by_cases hh : load_transcription_history c now (some ch) = []
    · rw [if_pos hh]
    · rw [if_neg hh]
      simp only [h, eq_self_iff_true, if_true]
  · intro parts hp
    obtain ⟨hlen, hmem⟩ := mapOrFail_ok fmtContextLine _ parts hp
    refine ⟨?_, ?_, ?_⟩
    · unfold get_recent_context contextFromHistory
      by_cases hh : load_transcription_history c now (some ch) = []
      · rw [if_pos hh]
        rw [hh] at hp
        have heq : mapOrFail fmtContextLine (lastN 5 (List.filter (inWindow now minutes) [])) =
            Except.ok ([] : List String) := rfl
        rw [heq] at hp
        obtain rfl := Except.ok.inj hp
        rfl
      · rw [if_neg hh]
        by_cases hr : (load_transcription_history c now (some ch)).filter (inWindow now minutes) = []
        · simp only [hr, if_pos rfl]
          rw [hr] at hp
          have heq : mapOrFail fmtContextLine (lastN 5 ([] : List StoredTrans)) =
              Except.ok ([] : List String) := rfl
          rw [heq] at hp
          obtain rfl := Except.ok.inj hp
          rfl
        · simp only [if_neg hr, hp]
    · rw [hlen]
      exact lastN_length_le 5 _
    · intro p hpmem
      obtain ⟨x, _, hfx⟩ := hmem p hpmem
      exact fmtContextLine_length x p hfx
  · have hsorted : List.Pairwise (fun a b => pyStrLe a.timestamp b.timestamp = true)
        (load_transcription_history c now (some ch)) := by
      cases c with
      | none => simp [load_transcription_history]
      | some s =>
        unfold load_transcription_history
        exact pySort_pairwise _
          (fun (a b : StoredTrans) => pyStrLe_total a.timestamp b.timestamp)
          (fun (a b c' : StoredTrans) => pyStrLe_trans a.timestamp b.timestamp c'.timestamp) _
    exact List.Pairwise.sublist ((lastN_sublist 5 _).trans (List.filter_sublist _)) hsorted

/-- A store with two `P1` entries inside a 10-hour horizon: one stored with
a `+02:00` offset (instant 08:00 UTC) and long text, one stored with
`+00:00` (instant 09:30 UTC) and short text. -/
def storeC3 : RedisStore :=
  ⟨[(("P1", 1), ⟨⟨"2024-01-01T10:00:00+02:00", String.mk (List.replicate 250 'a'), "P1"⟩,
      4000000000⟩),
    (("P1", 2), ⟨⟨"2024-01-01T09:30:00+00:00", "hej", "P1"⟩, 4000000000⟩)], []⟩

/-- 2024-01-01T10:00:00+00:00. -/
def dtC3 : PyDateTime := ⟨2024, 1, 1, 10, 0, 0, 0, some 0⟩

def lineC3a : String := "[09:30] hej..."

def lineC3b : String := "[10:00] " ++ String.mk (List.replicate 200 'a') ++ "..."

set_option maxRecDepth 8000 in
/-- Counterexample to C3 as stated: on `storeC3` the builder emits a line of
211 characters (> 203 = 200 + ellipsis), and emits the lines ordered by the
stored timestamp *string*, which here is *descending* by instant (the
second line's entry carries the earlier instant). -/
theorem claim_C3_counterexample :
    get_recent_context (some storeC3) dtC3 "P1" 600 = .ok (lineC3a ++ "\n" ++ lineC3b) ∧
    lineC3b.length = 211 ∧
    instantUsec (parse_timestamp_safely dtC3 "2024-01-01T10:00:00+02:00") <
      instantUsec (parse_timestamp_safely dtC3 "2024-01-01T09:30:00+00:00") :=
  ⟨rfl, by decide, by decide⟩

set_option maxRecDepth 8000 in
/-- Witness for C3 (amended): the theorem applied at `storeC3`, with the
formatting hypothesis discharged by evaluation. -/
theorem claim_C3_witness :
    get_recent_context (some storeC3) dtC3 "P1" 600 =
      .ok (String.intercalate "\n" [lineC3a, lineC3b]) ∧
    ([lineC3a, lineC3b] : List String).length ≤ 5 ∧
    (∀ p ∈ ([lineC3a, lineC3b] : List String), p.length ≤ 211) :=
  (claim_C3 (some storeC3) dtC3 "P1" 600).2.1 [lineC3a, lineC3b] rfl

theorem parse_safe_iso (now d : PyDateTime) (hv : validDT d = true)
    (haw : d.tzMin = some 0) :
    parse_timestamp_safely now (isoformat d) = d := by
  unfold parse_timestamp_safely
  rw [fromiso_iso d hv]
  simp [haw]

/-- **C4** (confirmed). (a) An entry appended with instant `d` (stored
timestamp `isoformat d`) is excluded by the one-hour windowed read filter at
any read time `nowR` later than `d` plus the 60-minute retention horizon.
(b) The expiry sweep runs as a side effect of every append — not as a
scheduled job: immediately after `save_transcription`, no stored key of the
appended channel is older than the 60-minute cutoff. -/
theorem claim_C4 (s : RedisStore) (now nowR d : PyDateTime) (ch text : String)
    (hv : validDT d = true) (haw : d.tzMin = some 0)
    (hlate : instantUsec d + 3600 * 1000000 < instantUsec nowR) :
    (∀ e : StoredTrans, e.timestamp = isoformat d → inWindow nowR 60 e = false) ∧
    (∀ kv ∈ (match save_transcription (some s) now ch text (.dtArg d) with
             | some s' => s'.trans
             | none => ([] : List ((String × Int) × TransVal))),
      kv.1.1 = ch → ¬ kv.1.2 < hourCutoff now) := by
  constructor
  · intro e he
    unfold inWindow
    rw [he, parse_safe_iso nowR d hv haw]
    apply decide_eq_false
    omega
  · intro kv hkv hch
    simp only [save_transcription, cleanup_old_transcriptions] at hkv
    obtain ⟨-, hp⟩ := List.mem_filter.mp hkv
    simp [hch] at hp
    omega

/-- Witness for C4: an entry appended at noon is excluded from a read two
hours later, and the post-append store is swept. -/
theorem claim_C4_witness :
    inWindow ⟨2024, 1, 1, 14, 0, 0, 0, some 0⟩ 60
      ⟨isoformat ⟨2024, 1, 1, 12, 0, 0, 0, some 0⟩, "hej", "P1"⟩ = false ∧
    (∀ kv ∈ (match save_transcription (some (⟨[], []⟩ : RedisStore))
          ⟨2024, 1, 1, 12, 0, 0, 0, some 0⟩ "P1" "hej"
          (.dtArg ⟨2024, 1, 1, 12, 0, 0, 0, some 0⟩) with
        | some s' => s'.trans
        | none => ([] : List ((String × Int) × TransVal))),
      kv.1.1 = "P1" → ¬ kv.1.2 < hourCutoff ⟨2024, 1, 1, 12, 0, 0, 0, some 0⟩) :=
  ⟨(claim_C4 ⟨[], []⟩ ⟨2024, 1, 1, 12, 0, 0, 0, some 0⟩ ⟨2024, 1, 1, 14, 0, 0, 0, some 0⟩
      ⟨2024, 1, 1, 12, 0, 0, 0, some 0⟩ "P1" "hej" (by decide) rfl (by decide)).1
      ⟨isoformat ⟨2024, 1, 1, 12, 0, 0, 0, some 0⟩, "hej", "P1"⟩ rfl,
   (claim_C4 ⟨[], []⟩ ⟨2024, 1, 1, 12, 0, 0, 0, some 0⟩ ⟨2024, 1, 1, 14, 0, 0, 0, some 0⟩
      ⟨2024, 1, 1, 12, 0, 0, 0, some 0⟩ "P1" "hej" (by decide) rfl (by decide)).2⟩

theorem alSet_fst_mem [DecidableEq κ] (k : κ) (v : α) (l : List (κ × α)) :
    ∀ a ∈ (alSet k v l).map Prod.fst, a = k ∨ a ∈ l.map Prod.fst := by
  induction l with
  | nil => intro a ha; simp [alSet] at ha; exact Or.inl ha
  | cons kv rest ih =>
    intro a ha
    obtain ⟨k', v'⟩ := kv
    unfold alSet at ha
    by_cases h : k = k'
    · rw [if_pos h] at ha
      simp only [List.map_cons, List.mem_cons] at ha ⊢
      rcases ha with rfl | ha
      · exact Or.inl rfl
      · exact Or.inr (Or.inr ha)
    · rw [if_neg h] at ha
      simp only [List.map_cons, List.mem_cons] at ha ⊢
      rcases ha with rfl | ha
      · exact Or.inr (Or.inl rfl)
      · rcases ih a ha with h' | h'
        · exact Or.inl h'
        · exact Or.inr (Or.inr h')

theorem alSet_keys_nodup [DecidableEq κ] (k : κ) (v : α) (l : List (κ × α))
    (h : (l.map Prod.fst).Nodup) : ((alSet k v l).map Prod.fst).Nodup := by
  induction l with
  | nil => simp [alSet]
  | cons kv rest ih =>
    obtain ⟨k', v'⟩ := kv
    simp only [List.map_cons, List.nodup_cons] at h
    obtain ⟨hk', hrest⟩ := h
    unfold alSet
    by_cases heq : k = k'
    · rw [if_pos heq]
      simp only [List.map_cons, List.nodup_cons]
      exact ⟨heq ▸ hk', hrest⟩
    · rw [if_neg heq]
      simp only [List.map_cons, List.nodup_cons]
      refine ⟨?_, ih hrest⟩
      intro hmem
      rcases alSet_fst_mem k v rest k' hmem with rfl | hmem'
      · exact heq rfl
      · exact hk' hmem'

theorem filterKey_nil [DecidableEq κ] (k : κ) (l : List (κ × α))
    (h : k ∉ l.map Prod.fst) : l.filter (fun kv => decide (kv.1 = k)) = [] := by
  induction l with
  | nil => rfl
  | cons kv rest ih =>
    simp only [List.map_cons, List.mem_cons, not_or] at h
    obtain ⟨hne, hrest⟩ := h
    simp only [List.filter_cons]
    rw [if_neg (by simpa using fun he => hne he.symm)]
    exact ih hrest

theorem filterKey_alSet [DecidableEq κ] (k : κ) (v : α) (l : List (κ × α))
    (h : (l.map Prod.fst).Nodup) :
    (alSet k v l).filter (fun kv => decide (kv.1 = k)) = [(k, v)] := by
  induction l with
  | nil => simp [alSet]
  | cons kv rest ih =>
    obtain ⟨k', v'⟩ := kv
    simp only [List.map_cons, List.nodup_cons] at h
    obtain ⟨hk', hrest⟩ := h
    unfold alSet
    by_cases heq : k = k'
    · rw [if_pos heq]
      simp only [List.filter_cons, decide_eq_true_eq, eq_self_iff_true, if_true]
      subst heq
      rw [filterKey_nil k rest hk']
    · rw [if_neg heq]
      simp only [List.filter_cons]
      rw [if_neg (by simpa using fun he => heq he.symm)]
      exact ih hrest

theorem filter_swap (p q : α → Bool) (l : List α) :
    (l.filter q).filter p = (l.filter p).filter q := by
  rw [List.filter_filter, List.filter_filter]
  apply List.filter_congr
  intro a _
  exact Bool.and_comm _ _

theorem filter_keys_nodup (p : (κ × α) → Bool) (l : List (κ × α))
    (h : (l.map Prod.fst).Nodup) : ((l.filter p).map Prod.fst).Nodup :=
  h.sublist ((List.filter_sublist l).map Prod.fst)

theorem save_transcription_some (s : RedisStore) (now d : PyDateTime) (ch text : String)
    (haw : d.tzMin = some 0) :
    save_transcription (some s) now ch text (.dtArg d) =
      some ⟨(alSet (ch, keyEpoch d) ⟨⟨isoformat d, pyStrip text, ch⟩, toEpochSec now + 86400⟩
              s.trans).filter
          (fun kv => !(decide (kv.1.1 = ch) && decide (kv.1.2 < hourCutoff now))),
        s.sums⟩ := by
  unfold save_transcription cleanup_old_transcriptions normalizeTs
  simp [haw]

/-- **C5** (confirmed). Appending two entries for the same channel whose
instants fall in the same second (equal `int(timestamp.timestamp())`) yields
exactly one stored entry under that `(channel, second)` key — the later
text wins (`setex` overwrites the same key) — provided the shared second is
within the later sweep's retention horizon and the starting store has no
duplicate keys. -/
theorem claim_C5 (s : RedisStore) (now1 now2 d1 d2 : PyDateTime) (ch t1 t2 : String)
    (hnd : (s.trans.map Prod.fst).Nodup)
    (haw1 : d1.tzMin = some 0) (haw2 : d2.tzMin = some 0)
    (hkey : keyEpoch d1 = keyEpoch d2)
    (hcut2 : ¬ keyEpoch d2 < hourCutoff now2) :
    (match save_transcription (save_transcription (some s) now1 ch t1 (.dtArg d1))
        now2 ch t2 (.dtArg d2) with
     | some s2 => s2.trans.filter (fun kv => decide (kv.1 = (ch, keyEpoch d2)))
     | none => ([] : List ((String × Int) × TransVal))) =
    [((ch, keyEpoch d2), ⟨⟨isoformat d2, pyStrip t2, ch⟩, toEpochSec now2 + 86400⟩)] := by
  rw [save_transcription_some s now1 d1 ch t1 haw1]
  rw [save_transcription_some _ now2 d2 ch t2 haw2]
  simp only
  rw [hkey]
  have hnd1 : ((((alSet (ch, keyEpoch d2)
      ⟨⟨isoformat d1, pyStrip t1, ch⟩, toEpochSec now1 + 86400⟩ s.trans).filter
        (fun kv => !(decide (kv.1.1 = ch) && decide (kv.1.2 < hourCutoff now1)))).map
          Prod.fst)).Nodup :=
    filter_keys_nodup _ _ (alSet_keys_nodup _ _ _ hnd)
  rw [filter_swap]
  rw [filterKey_alSet _ _ _ hnd1]
  simp only [List.filter_cons, List.filter_nil]
  rw [if_pos (by simp [hcut2])]

/-- Witness for C5: two appends within the same second (12:00:00.100 and
12:00:00.900), second text "senare". -/
theorem claim_C5_witness :
    (match save_transcription (save_transcription (some (⟨[], []⟩ : RedisStore))
        ⟨2024, 1, 1, 12, 0, 0, 100000, some 0⟩ "P1" "först"
        (.dtArg ⟨2024, 1, 1, 12, 0, 0, 100000, some 0⟩))
        ⟨2024, 1, 1, 12, 0, 0, 900000, some 0⟩ "P1" "senare"
        (.dtArg ⟨2024, 1, 1, 12, 0, 0, 900000, some 0⟩) with
     | some s2 => s2.trans.filter
        (fun kv => decide (kv.1 = ("P1", keyEpoch ⟨2024, 1, 1, 12, 0, 0, 900000, some 0⟩)))
     | none => ([] : List ((String × Int) × TransVal))) =
    [(("P1", keyEpoch ⟨2024, 1, 1, 12, 0, 0, 900000, some 0⟩),
      ⟨⟨isoformat ⟨2024, 1, 1, 12, 0, 0, 900000, some 0⟩, pyStrip "senare", "P1"⟩,
        toEpochSec ⟨2024, 1, 1, 12, 0, 0, 900000, some 0⟩ + 86400⟩)] :=
  claim_C5 ⟨[], []⟩ ⟨2024, 1, 1, 12, 0, 0, 100000, some 0⟩
    ⟨2024, 1, 1, 12, 0, 0, 900000, some 0⟩ ⟨2024, 1, 1, 12, 0, 0, 100000, some 0⟩
    ⟨2024, 1, 1, 12, 0, 0, 900000, some 0⟩ "P1" "först" "senare"
    (by simp) rfl rfl (by decide) (by decide)

/-- **C6** (corrected). For every configured channel and store content the
transcription endpoint returns 200 (never an error): exactly the last-hour
entries of the Transcript Store (membership both ways), an empty list when
none exist, and the list stable-sorted *descending by the formatted
time-of-day string `HH:MM:SS`* — which coincides with descending instant
order only when the one-hour window does not span midnight, contrary to the
original claim of descending-by-instant. -/
theorem claim_C6 (c : Option RedisStore) (now : PyDateTime) (ch : String)
    (h : CHANNELS.any (fun cfg => cfg.name == ch) = true) :
    ∃ body, get_channel_transcriptions_ep c now ch = .ok body ∧
      List.Pairwise (fun a b => pyStrLe b.time_formatted a.time_formatted = true)
        body.transcriptions ∧
      (∀ x, x ∈ body.transcriptions ↔
        x ∈ ((load_transcription_history c now (some ch)).filter (inWindow now 60)).map
          (fun e => (⟨e.text, strfHMS (parse_timestamp_safely now e.timestamp)⟩ : FmtTrans))) ∧
      ((load_transcription_history c now (some ch)).filter (inWindow now 60) = [] →
        body.transcriptions = []) := by
  by_cases hh : load_transcription_history c now (some ch) = []
  · refine ⟨⟨[], none, some ("No transcriptions found for " ++ ch)⟩, ?_, ?_, ?_, ?_⟩
    · simp [get_channel_transcriptions_ep, h, hh]
    · simp
    · intro x
      simp [hh]
    · intro
      rfl
  · refine ⟨⟨pySort (fun a b => pyStrLe b.time_formatted a.time_formatted)
        (((load_transcription_history c now (some ch)).filter (inWindow now 60)).map
          (fun e => (⟨e.text, strfHMS (parse_timestamp_safely now e.timestamp)⟩ : FmtTrans))),
      some ch, none⟩, ?_, ?_, ?_, ?_⟩
    · simp [get_channel_transcriptions_ep, h, hh]
    · exact pySort_pairwise _
        (fun (a b : FmtTrans) => pyStrLe_total b.time_formatted a.time_formatted)
        (fun (a b c' : FmtTrans) hab hbc =>
          pyStrLe_trans c'.time_formatted b.time_formatted a.time_formatted hbc hab) _
    · intro x
      exact mem_pySort _ x _
    · intro hf
      rw [hf]
      rfl

/-- A store with two `P1` entries straddling midnight: 23:50:00 UTC and
00:10:00 UTC the next day; read at 00:30:00 UTC both are within the last
hour. -/
def storeC6 : RedisStore :=
  ⟨[(("P1", 1), ⟨⟨"2024-01-01T23:50:00+00:00", "sen kväll", "P1"⟩, 4000000000⟩),
    (("P1", 2), ⟨⟨"2024-01-02T00:10:00+00:00", "tidig natt", "P1"⟩, 4000000000⟩)], []⟩

/-- 2024-01-02T00:30:00+00:00. -/
def dtC6 : PyDateTime := ⟨2024, 1, 2, 0, 30, 0, 0, some 0⟩

set_option maxRecDepth 8000 in
/-- Counterexample to C6 as stated: across midnight the endpoint lists the
23:50 entry first although its instant precedes the 00:10 entry's — the
list is descending by the `HH:MM:SS` string, not by instant. -/
theorem claim_C6_counterexample :
    get_channel_transcriptions_ep (some storeC6) dtC6 "P1" =
      .ok ⟨[⟨"sen kväll", "23:50:00"⟩, ⟨"tidig natt", "00:10:00"⟩], some "P1", none⟩ ∧
    instantUsec (parse_timestamp_safely dtC6 "2024-01-01T23:50:00+00:00") <
      instantUsec (parse_timestamp_safely dtC6 "2024-01-02T00:10:00+00:00") :=
  ⟨rfl, by decide⟩

set_option maxRecDepth 8000 in
/-- Witness for C6 (amended): the theorem applied at the midnight store. -/
theorem claim_C6_witness :
    ∃ body, get_channel_transcriptions_ep (some storeC6) dtC6 "P1" = .ok body ∧
      List.Pairwise (fun a b => pyStrLe b.time_formatted a.time_formatted = true)
        body.transcriptions ∧
      (∀ x, x ∈ body.transcriptions ↔
        x ∈ ((load_transcription_history (some storeC6) dtC6 (some "P1")).filter
            (inWindow dtC6 60)).map
          (fun e => (⟨e.text, strfHMS (parse_timestamp_safely dtC6 e.timestamp)⟩ : FmtTrans))) ∧
      ((load_transcription_history (some storeC6) dtC6 (some "P1")).filter
          (inWindow dtC6 60) = [] →
        body.transcriptions = []) :=
  claim_C6 (some storeC6) dtC6 "P1" rfl
